import Mathlib

/-!
Verification of the balance-consistency engine of a small-business
bookkeeping ledger (suppliers, purchases, payments).

The repository stores its data in six SQLite tables and performs CRUD
operations through repository classes.  We embed the supplier-side tables
(suppliers, purchases, payments) as lists of rows, and each repository
operation as a function from a database state to a result together with the
post-operation state.  Monetary DECIMAL(15,2) columns are modelled as
integers (fixed-point amounts); dates are opaque strings.

Error modelling: the source raises a single Python ValueError for every
business-rule failure and sqlite3.Error for storage failures; the design
document classifies these sites into ValidationError / NotFound / Conflict /
StorageFailure.  We tag each raise site with its class.  Every mutating
operation in the source either raises before its first write or rolls the
open transaction back in the sqlite error handler before re-raising, so an
error result always returns the caller pre-state unchanged; the embedding
returns the pre-state explicitly in each error branch.

Python truthiness: the source guards purchase linkage with the bare test
on purchase_id, which is false for None and for 0; the function truthy
below models exactly that.
-/

/-- Row of the suppliers table (models/database.py lines 31-39). -/
structure SupplierRow where
  id : Nat
  name : String
  contact : Option String
  address : Option String
  balance : Int
deriving DecidableEq, Repr

/-- Row of the purchases table (models/database.py lines 53-65). -/
structure PurchaseRow where
  id : Nat
  pdate : String
  supplier_id : Nat
  bill_no : Option String
  amount : Int
  paid_amount : Int
  items : Option String
  notes : Option String
deriving DecidableEq, Repr

/-- Row of the payments table (models/database.py lines 83-95). -/
structure PaymentRow where
  id : Nat
  pdate : String
  supplier_id : Nat
  purchase_id : Option Nat
  amount : Int
  payment_mode : String
  reference_no : Option String
  notes : Option String
deriving DecidableEq, Repr

/-- The supplier-side database state.  The nextXId fields model the
AUTOINCREMENT primary-key counters of SQLite (first assigned id is 1). -/
structure DB where
  suppliers : List SupplierRow
  purchases : List PurchaseRow
  payments : List PaymentRow
  nextSupplierId : Nat
  nextPurchaseId : Nat
  nextPaymentId : Nat
deriving DecidableEq, Repr

/-- Error classes of the design document, tagging the ValueError and
sqlite3.Error raise sites of the source. -/
inductive Err where
  | ValidationError
  | NotFound
  | Conflict
  | StorageFailure
deriving DecidableEq, Repr

deriving instance DecidableEq for Except

/-- Python str.strip with no argument: remove leading and trailing
whitespace characters.  Defined structurally over the character list so
that concrete instances evaluate inside the kernel. -/
def pyStrip (s : String) : String :=
  ⟨((s.data.dropWhile Char.isWhitespace).reverse.dropWhile Char.isWhitespace).reverse⟩

/-- Python truthiness of an optional integer id: None and 0 are falsy. -/
def truthy : Option Nat → Bool
  | none => false
  | some n => n != 0

/-- Valid payment modes (models/payment.py line 136). -/
def validMode (m : String) : Bool :=
  m == "cash" || m == "bank" || m == "cheque" || m == "upi" || m == "card"

/-- SELECT id FROM suppliers WHERE id = ? returns a row. -/
def supplierExists (db : DB) (sid : Nat) : Bool :=
  db.suppliers.any (fun s => s.id == sid)

/-- SELECT id FROM purchases WHERE id = ? returns a row. -/
def purchaseExists (db : DB) (n : Nat) : Bool :=
  db.purchases.any (fun p => p.id == n)

/-- UPDATE purchases SET paid_amount = paid_amount + delta WHERE id = n. -/
def bumpPurchase (db : DB) (n : Nat) (delta : Int) : DB :=
  { db with purchases := db.purchases.map (fun p =>
      if p.id == n then { p with paid_amount := p.paid_amount + delta } else p) }

/-- The purchases of one supplier (WHERE supplier_id = sid). -/
def purchasesOf (db : DB) (sid : Nat) : List PurchaseRow :=
  db.purchases.filter (fun p => p.supplier_id == sid)

/-- The payments of one supplier (WHERE supplier_id = sid). -/
def paymentsOf (db : DB) (sid : Nat) : List PaymentRow :=
  db.payments.filter (fun q => q.supplier_id == sid)

/-- Supplier.create (models/supplier.py lines 74-92): the INSERT stores the
stripped name; the UNIQUE(name) constraint surfaces as IntegrityError, which
the source converts to a duplicate-name error (Conflict class).  There is no
non-empty check: SQLite NOT NULL accepts the empty string. -/
def Supplier.create (name : String) (contact address : Option String) (db : DB) :
    Except Err Nat × DB :=
  if db.suppliers.any (fun s => s.name == pyStrip name) then
    (.error .Conflict, db)
  else
    let sid := db.nextSupplierId
    (.ok sid,
      { db with
        suppliers := db.suppliers ++ [⟨sid, pyStrip name, contact, address, 0⟩],
        nextSupplierId := sid + 1 })

/-- Supplier.update (models/supplier.py lines 94-135): builds a dynamic
UPDATE from the non-None fields; with no fields it returns False before
touching the database (line 113-114); rowcount reports whether the id
matched a row; a renamed supplier colliding with another row raises the
duplicate-name error (Conflict). -/
def Supplier.update (i : Nat) (name contact address : Option String) (db : DB) :
    Except Err Bool × DB :=
  if name.isNone ∧ contact.isNone ∧ address.isNone then
    (.ok false, db)
  else if supplierExists db i &&
      (match name with
       | some n => db.suppliers.any (fun s => s.name == pyStrip n && s.id != i)
       | none => false) then
    (.error .Conflict, db)
  else
    (.ok (supplierExists db i),
      { db with suppliers := db.suppliers.map (fun s =>
          if s.id == i then
            { s with
              name := (name.map pyStrip).getD s.name,
              contact := if contact.isSome then contact else s.contact,
              address := if address.isSome then address else s.address }
          else s) })

/-- Supplier.delete (models/supplier.py lines 137-169): counts the supplier
purchases and payments first and raises the protected-delete error
(Conflict class) when either count is positive, before the DELETE runs. -/
def Supplier.delete (i : Nat) (db : DB) : Except Err Bool × DB :=
  if (db.purchases.filter (fun p => p.supplier_id == i)).length > 0 ∨
     (db.payments.filter (fun q => q.supplier_id == i)).length > 0 then
    (.error .Conflict, db)
  else
    (.ok (db.suppliers.any (fun s => s.id == i)),
      { db with suppliers := db.suppliers.filter (fun s => !(s.id == i)) })

/-- Purchase.get_by_id (models/purchase.py lines 42-61): the query joins the
purchase with its supplier, so a row is returned only when the supplier row
also exists. -/
def Purchase.get_by_id (db : DB) (i : Nat) : Option PurchaseRow :=
  match db.purchases.find? (fun p => p.id == i) with
  | none => none
  | some p => if supplierExists db p.supplier_id then some p else none

/-- Purchase.create (models/purchase.py lines 115-148) together with the
AFTER INSERT trigger update_supplier_balance_on_purchase
(models/database.py lines 123-132), which adds amount - paid_amount to the
supplier balance in the same transaction. -/
def Purchase.create (d : String) (sid : Nat) (amt : Int) (bill : Option String)
    (paid : Int) (items notes : Option String) (db : DB) : Except Err Nat × DB :=
  if amt ≤ 0 then (.error .ValidationError, db)
  else if paid < 0 then (.error .ValidationError, db)
  else if paid > amt then (.error .ValidationError, db)
  else if !supplierExists db sid then (.error .NotFound, db)
  else
    let pid := db.nextPurchaseId
    (.ok pid,
      { db with
        purchases := db.purchases ++ [⟨pid, d, sid, bill, amt, paid, items, notes⟩],
        nextPurchaseId := pid + 1,
        suppliers := db.suppliers.map (fun s =>
          if s.id == sid then { s with balance := s.balance + (amt - paid) } else s) })

/-- The SET clause of the dynamic purchase UPDATE: each supplied field
replaces the stored one, every other field keeps its stored value. -/
def purchasePatch (d : Option String) (sid : Option Nat) (bill : Option String)
    (amt paid : Option Int) (items notes : Option String) (p : PurchaseRow) :
    PurchaseRow :=
  { p with
    pdate := d.getD p.pdate,
    supplier_id := sid.getD p.supplier_id,
    bill_no := if bill.isSome then bill else p.bill_no,
    amount := amt.getD p.amount,
    paid_amount := paid.getD p.paid_amount,
    items := if items.isSome then items else p.items,
    notes := if notes.isSome then notes else p.notes }

/-- Purchase.update (models/purchase.py lines 150-215): fetches the current
row (NotFound when absent), validates each supplied field in source order -
supplier existence, amount positive, paid_amount at least 0 and at most the
new amount when one is supplied or else the current amount - and with no
supplied field returns False before the UPDATE.  Note that a supplied amount
alone is never compared against the stored paid_amount. -/
def Purchase.update (i : Nat) (d : Option String) (sid : Option Nat)
    (bill : Option String) (amt paid : Option Int) (items notes : Option String)
    (db : DB) : Except Err Bool × DB :=
  match Purchase.get_by_id db i with
  | none => (.error .NotFound, db)
  | some current =>
    if sid.isSome ∧ !supplierExists db (sid.getD 0) then (.error .NotFound, db)
    else if amt.isSome ∧ amt.getD 0 ≤ 0 then (.error .ValidationError, db)
    else if paid.isSome ∧ paid.getD 0 < 0 then (.error .ValidationError, db)
    else if paid.isSome ∧ paid.getD 0 > amt.getD current.amount then
      (.error .ValidationError, db)
    else if d.isNone ∧ sid.isNone ∧ bill.isNone ∧ amt.isNone ∧ paid.isNone ∧
        items.isNone ∧ notes.isNone then
      (.ok false, db)
    else
      (.ok true,
        { db with purchases := db.purchases.map (fun p =>
            if p.id == i then purchasePatch d sid bill amt paid items notes p else p) })

/-- Purchase.delete (models/purchase.py lines 217-242): counts the payments
referencing the purchase and raises the protected-delete error (Conflict
class) when the count is positive, before the DELETE runs. -/
def Purchase.delete (i : Nat) (db : DB) : Except Err Bool × DB :=
  if (db.payments.filter (fun q => q.purchase_id == some i)).length > 0 then
    (.error .Conflict, db)
  else
    (.ok (db.purchases.any (fun p => p.id == i)),
      { db with purchases := db.purchases.filter (fun p => !(p.id == i)) })

/-- Payment.get_by_id (models/payment.py lines 40-60): joins the payment
with its supplier (inner join) and optionally its purchase (left join), so a
row is returned only when the supplier row also exists. -/
def Payment.get_by_id (db : DB) (i : Nat) : Option PaymentRow :=
  match db.payments.find? (fun q => q.id == i) with
  | none => none
  | some q => if supplierExists db q.supplier_id then some q else none

/-- Fault-injection points for the write steps of Payment.create: the
payment INSERT, the linked-purchase UPDATE, and the final commit.  A fault
models an sqlite3.Error thrown by that step; the source catches it, rolls
the transaction back and re-raises (models/payment.py lines 181-184). -/
inductive FaultPt where
  | noFault
  | atInsert
  | atLink
  | atCommit
deriving DecidableEq, Repr

/-- The INSERT INTO payments statement (models/payment.py lines 162-165)
with its foreign-key enforcement (PRAGMA foreign_keys = ON) and the AFTER
INSERT trigger update_supplier_balance_on_payment (models/database.py
lines 134-143), which subtracts the amount from the supplier balance.
Returns none when a foreign key is violated (sqlite3.Error). -/
def insertPaymentRow (d : String) (sid : Nat) (amt : Int) (mode : String)
    (pid : Option Nat) (ref notes : Option String) (db : DB) : Option DB :=
  if !supplierExists db sid then none
  else if pid.isSome ∧ !purchaseExists db (pid.getD 0) then none
  else
    some { db with
      payments := db.payments ++ [⟨db.nextPaymentId, d, sid, pid, amt, mode, ref, notes⟩],
      nextPaymentId := db.nextPaymentId + 1,
      suppliers := db.suppliers.map (fun s =>
        if s.id == sid then { s with balance := s.balance - amt } else s) }

/-- Write phase of Payment.create (models/payment.py lines 161-179): insert
the payment, then, for a truthy purchase_id, add the amount to the purchase
paid_amount, then commit.  On a fault at any step the transaction is rolled
back, so the caller state is returned unchanged. -/
def Payment.finishCreate (fp : FaultPt) (d : String) (sid : Nat) (amt : Int)
    (mode : String) (pid : Option Nat) (ref notes : Option String) (db : DB) :
    Except Err Nat × DB :=
  if fp = .atInsert then (.error .StorageFailure, db)
  else
    match insertPaymentRow d sid amt mode pid ref notes db with
    | none => (.error .StorageFailure, db)
    | some db1 =>
      if truthy pid then
        if fp = .atLink then (.error .StorageFailure, db)
        else if fp = .atCommit then (.error .StorageFailure, db)
        else (.ok db.nextPaymentId, bumpPurchase db1 (pid.getD 0) amt)
      else
        if fp = .atCommit then (.error .StorageFailure, db)
        else (.ok db.nextPaymentId, db1)

/-- Payment.create (models/payment.py lines 128-184) with fault injection:
validates amount, payment mode and supplier existence, then, for a truthy
purchase_id, requires the purchase to exist for the same supplier and the
amount not to exceed the outstanding amount, then runs the write phase. -/
def Payment.createF (fp : FaultPt) (d : String) (sid : Nat) (amt : Int)
    (mode : String) (pid : Option Nat) (ref notes : Option String) (db : DB) :
    Except Err Nat × DB :=
  if amt ≤ 0 then (.error .ValidationError, db)
  else if !validMode mode then (.error .ValidationError, db)
  else if !supplierExists db sid then (.error .NotFound, db)
  else if truthy pid then
    match db.purchases.find? (fun p => p.id == pid.getD 0 && p.supplier_id == sid) with
    | none => (.error .ValidationError, db)
    | some pur =>
      if amt > pur.amount - pur.paid_amount then (.error .ValidationError, db)
      else Payment.finishCreate fp d sid amt mode pid ref notes db
  else Payment.finishCreate fp d sid amt mode pid ref notes db

/-- Payment.create without faults. -/
def Payment.create (d : String) (sid : Nat) (amt : Int) (mode : String)
    (pid : Option Nat) (ref notes : Option String) (db : DB) : Except Err Nat × DB :=
  Payment.createF .noFault d sid amt mode pid ref notes db

/-- The SET clause of the dynamic payment UPDATE: each supplied field
replaces the stored one; supplier_id and purchase_id are not updatable. -/
def paymentPatch (d : Option String) (amt : Option Int) (mode ref notes : Option String)
    (q : PaymentRow) : PaymentRow :=
  { q with
    pdate := d.getD q.pdate,
    amount := amt.getD q.amount,
    payment_mode := mode.getD q.payment_mode,
    reference_no := if ref.isSome then ref else q.reference_no,
    notes := if notes.isSome then notes else q.notes }

/-- Tail of Payment.update (models/payment.py lines 225-260): validate the
payment mode, return False when no field was supplied, apply the dynamic
UPDATE to the payment row, and for an amount change on a linked payment add
the amount difference to the purchase paid_amount. -/
def Payment.updateRest (i : Nat) (cur : PaymentRow) (d : Option String)
    (amt : Option Int) (mode ref notes : Option String) (db : DB) :
    Except Err Bool × DB :=
  if mode.isSome ∧ !validMode (mode.getD "") then (.error .ValidationError, db)
  else if d.isNone ∧ amt.isNone ∧ mode.isNone ∧ ref.isNone ∧ notes.isNone then
    (.ok false, db)
  else if amt.isSome ∧ truthy cur.purchase_id then
    (.ok true,
      bumpPurchase
        { db with payments := db.payments.map (fun q =>
            if q.id == i then paymentPatch d amt mode ref notes q else q) }
        (cur.purchase_id.getD 0) (amt.getD 0 - cur.amount))
  else
    (.ok true,
      { db with payments := db.payments.map (fun q =>
          if q.id == i then paymentPatch d amt mode ref notes q else q) })

/-- Payment.update (models/payment.py lines 186-265): fetches the current
payment (NotFound when absent), validates a supplied amount - positive, and
for a linked payment the recomputed total paid (other payments plus the new
amount) must not exceed the purchase amount - then runs the rest.  A linked
payment whose purchase row is missing makes the source crash on a None row
before any write; we class that as a storage-level failure with the state
unchanged. -/
def Payment.update (i : Nat) (d : Option String) (amt : Option Int)
    (mode ref notes : Option String) (db : DB) : Except Err Bool × DB :=
  match Payment.get_by_id db i with
  | none => (.error .NotFound, db)
  | some cur =>
    if amt.isSome ∧ amt.getD 0 ≤ 0 then (.error .ValidationError, db)
    else if amt.isSome ∧ truthy cur.purchase_id then
      match db.purchases.find? (fun p => p.id == cur.purchase_id.getD 0) with
      | none => (.error .StorageFailure, db)
      | some pur =>
        if pur.paid_amount - cur.amount + amt.getD 0 > pur.amount then
          (.error .ValidationError, db)
        else Payment.updateRest i cur d amt mode ref notes db
    else Payment.updateRest i cur d amt mode ref notes db

/-- Payment.delete (models/payment.py lines 267-297): fetches the payment
(NotFound when absent), subtracts its amount from the linked purchase
paid_amount when the link is truthy, then deletes the payment row.  The
supplier balance is not touched (the balance trigger fires on INSERT only). -/
def Payment.delete (i : Nat) (db : DB) : Except Err Bool × DB :=
  match Payment.get_by_id db i with
  | none => (.error .NotFound, db)
  | some pay =>
    let db1 :=
      if truthy pay.purchase_id then
        bumpPurchase db (pay.purchase_id.getD 0) (-pay.amount)
      else db
    (.ok true, { db1 with payments := db1.payments.filter (fun q => !(q.id == i)) })

/-- Nested-loop product of two row lists, modelling a JOIN without join
condition between them. -/
def crossRows {α β : Type} : List α → List β → List (α × β)
  | [], _ => []
  | a :: as, bs => bs.map (fun b => (a, b)) ++ crossRows as bs

/-- Aggregate a numeric column of an outer-joined row: NULL contributes 0
(SUM ignores NULLs and the COALESCE default is 0). -/
def optInt {α : Type} (f : α → Int) : Option α → Int
  | none => 0
  | some a => f a

/-- Left-join padding: an empty right side contributes a single NULL row. -/
def padded {α : Type} (l : List α) : List (Option α) :=
  if l.isEmpty then [none] else l.map some

/-- Supplier.get_by_id (models/supplier.py lines 28-47): one SELECT that
left-joins the supplier with all its purchases and, independently, all its
payments, groups by the supplier id, and reports COUNT(p.id) as
total_purchases, SUM(p.amount) as total_purchase_amount, SUM(p.paid_amount)
as total_paid_amount and SUM(pay.amount) as total_payments.  The two left
joins multiply out, so every purchase row is paired with every payment row
of the same supplier. -/
def Supplier.get_by_id (db : DB) (sid : Nat) :
    Option (SupplierRow × Nat × Int × Int × Int) :=
  match db.suppliers.find? (fun s => s.id == sid) with
  | none => none
  | some s =>
    let rows := crossRows (padded (purchasesOf db sid)) (padded (paymentsOf db sid))
    some (s,
      rows.countP (fun r => r.1.isSome),
      (rows.map (fun r => optInt (fun p => p.amount) r.1)).sum,
      (rows.map (fun r => optInt (fun p => p.paid_amount) r.1)).sum,
      (rows.map (fun r => optInt (fun q => q.amount) r.2)).sum)

/-- Sum of the amounts of the payments linked to purchase id t
(SUM(amount) over payments WHERE purchase_id = t). -/
def paymentsSumFor (db : DB) (t : Nat) : Int :=
  (db.payments.map (fun q => if q.purchase_id == some t then q.amount else 0)).sum

/-- Invariant I2: every purchase paid_amount equals the sum of the amounts
of the payments linked to it. -/
def invI2 (db : DB) : Prop :=
  ∀ pur ∈ db.purchases, pur.paid_amount = paymentsSumFor db pur.id

/-- Sum of the purchase amounts of one supplier. -/
def purchAmtSum (db : DB) (sid : Nat) : Int :=
  (db.purchases.map (fun p => if p.supplier_id == sid then p.amount else 0)).sum

/-- Sum of the purchase paid_amounts of one supplier. -/
def purchPaidSum (db : DB) (sid : Nat) : Int :=
  (db.purchases.map (fun p => if p.supplier_id == sid then p.paid_amount else 0)).sum

/-- Sum of the unlinked (purchase_id NULL) payment amounts of one supplier. -/
def unlinkedPaySum (db : DB) (sid : Nat) : Int :=
  (db.payments.map (fun q =>
    if q.supplier_id == sid && q.purchase_id.isNone then q.amount else 0)).sum

/-- Invariant I3: every stored supplier balance equals the from-scratch
aggregate over that supplier rows. -/
def invI3 (db : DB) : Prop :=
  ∀ s ∈ db.suppliers,
    s.balance = purchAmtSum db s.id - purchPaidSum db s.id - unlinkedPaySum db s.id

/-- Invariant I1 for purchases, as a decidable check over a state. -/
def purchasesInRange (db : DB) : Prop :=
  ∀ p ∈ db.purchases, 0 ≤ p.paid_amount ∧ p.paid_amount ≤ p.amount

/-- Well-formedness of a database state: primary keys are duplicate-free,
below the AUTOINCREMENT counters, and purchase ids are positive (SQLite
assigns ids from 1). -/
def WF (db : DB) : Prop :=
  (db.payments.map (fun q => q.id)).Nodup ∧
  (∀ q ∈ db.payments, q.id < db.nextPaymentId) ∧
  (db.purchases.map (fun p => p.id)).Nodup ∧
  (∀ p ∈ db.purchases, p.id < db.nextPurchaseId) ∧
  (∀ p ∈ db.purchases, 1 ≤ p.id) ∧
  1 ≤ db.nextPurchaseId

instance (db : DB) : Decidable (invI2 db) := by unfold invI2; infer_instance

instance (db : DB) : Decidable (invI3 db) := by unfold invI3; infer_instance

instance (db : DB) : Decidable (purchasesInRange db) := by
  unfold purchasesInRange; infer_instance

instance (db : DB) : Decidable (WF db) := by unfold WF; infer_instance

/-- A Payment repository mutation with its arguments. -/
inductive PayOp where
  | createP (d : String) (sid : Nat) (amt : Int) (mode : String)
      (pid : Option Nat) (ref notes : Option String)
  | updateP (i : Nat) (d : Option String) (amt : Option Int)
      (mode ref notes : Option String)
  | deleteP (i : Nat)

/-- State after a Payment repository call; a failing call leaves the state
unchanged (validation happens before the first write, storage errors roll
the transaction back). -/
def applyPayOp (op : PayOp) (db : DB) : DB :=
  match op with
  | .createP d sid amt mode pid ref notes => (Payment.create d sid amt mode pid ref notes db).2
  | .updateP i d amt mode ref notes => (Payment.update i d amt mode ref notes db).2
  | .deleteP i => (Payment.delete i db).2

/-- State after a sequence of Payment repository calls. -/
def applyPayOps (ops : List PayOp) (db : DB) : DB :=
  ops.foldl (fun db op => applyPayOp op db) db

/-- A Purchase.create or Payment.create call with its arguments. -/
inductive CreateOp where
  | purchaseC (d : String) (sid : Nat) (amt : Int) (bill : Option String)
      (paid : Int) (items notes : Option String)
  | paymentC (d : String) (sid : Nat) (amt : Int) (mode : String)
      (pid : Option Nat) (ref notes : Option String)

/-- State after one create call. -/
def applyCreateOp (op : CreateOp) (db : DB) : DB :=
  match op with
  | .purchaseC d sid amt bill paid items notes =>
      (Purchase.create d sid amt bill paid items notes db).2
  | .paymentC d sid amt mode pid ref notes =>
      (Payment.create d sid amt mode pid ref notes db).2

/-- State after a sequence of create calls. -/
def applyCreateOps (ops : List CreateOp) (db : DB) : DB :=
  ops.foldl (fun db op => applyCreateOp op db) db

theorem sum_map_const {α : Type} (l : List α) (c : Int) :
    (l.map (fun _ => c)).sum = l.length * c := by
  induction l with
  | nil => simp
  | cons a l ih => simp [ih]; ring

theorem crossRows_map_fst_sum {α β : Type} (as : List α) (bs : List β) (f : α → Int) :
    ((crossRows as bs).map (fun r => f r.1)).sum = (bs.length : Int) * (as.map f).sum := by
  induction as with
  | nil => simp [crossRows]
  | cons a as ih =>
    simp only [crossRows, List.map_append, List.sum_append, ih, List.map_map]
    have h1 : ((fun r : α × β => f r.1) ∘ fun b => (a, b)) = fun _ => f a := rfl
    rw [h1, sum_map_const]
    simp only [List.map_cons, List.sum_cons]
    ring

theorem crossRows_map_snd_sum {α β : Type} (as : List α) (bs : List β) (g : β → Int) :
    ((crossRows as bs).map (fun r => g r.2)).sum = (as.length : Int) * (bs.map g).sum := by
  induction as with
  | nil => simp [crossRows]
  | cons a as ih =>
    simp only [crossRows, List.map_append, List.sum_append, ih, List.map_map]
    have h1 : ((fun r : α × β => g r.2) ∘ fun b => (a, b)) = fun b => g b := rfl
    rw [h1]
    simp only [List.length_cons]
    push_cast
    ring

theorem crossRows_countP_fst {α β : Type} (as : List α) (bs : List β) (p : α → Bool) :
    (crossRows as bs).countP (fun r => p r.1) = (as.countP p) * bs.length := by
  induction as with
  | nil => simp [crossRows]
  | cons a as ih =>
    simp only [crossRows, List.countP_append, ih, List.countP_map, List.countP_cons]
    by_cases h : p a = true
    · have h1 : ((fun r : α × β => p r.1) ∘ fun b => (a, b)) = fun _ => true := by
        funext b; simp [h]
      rw [h1, List.countP_true]
      simp [h, Nat.add_mul]
      ring
    · have h1 : ((fun r : α × β => p r.1) ∘ fun b => (a, b)) = fun _ => false := by
        funext b; simp [Bool.eq_false_iff.mpr h]
      rw [h1, List.countP_false]
      simp [h]

theorem padded_length {α : Type} (l : List α) : (padded l).length = max l.length 1 := by
  unfold padded
  match l with
  | [] => simp
  | a :: l => simp [Nat.max_eq_left (Nat.succ_le_succ (Nat.zero_le _))]

theorem padded_map_optInt {α : Type} (l : List α) (f : α → Int) :
    ((padded l).map (optInt f)).sum = (l.map f).sum := by
  unfold padded
  match l with
  | [] => simp [optInt]
  | a :: l => simp [List.map_map, optInt]; rfl

theorem padded_countP_isSome {α : Type} (l : List α) :
    (padded l).countP (fun o => o.isSome) = l.length := by
  unfold padded
  match l with
  | [] => simp
  | a :: l =>
    have h1 : ((fun o : Option α => o.isSome) ∘ fun a => some a) = fun _ => true := rfl
    simp only [List.isEmpty_cons, Bool.false_eq_true, if_false, List.countP_map, h1,
      List.countP_true, List.length_map]

theorem map_ite_key_id {α : Type} (l : List α) (key : α → Nat) (i : Nat) (f : α → α)
    (h : ∀ b ∈ l, key b ≠ i) :
    l.map (fun a => if key a == i then f a else a) = l := by
  induction l with
  | nil => rfl
  | cons a l ih =>
    have ha : (key a == i) = false := by
      simpa using h a (List.mem_cons_self a l)
    simp only [List.map_cons, ha, Bool.false_eq_true, if_false,
      ih (fun b hb => h b (List.mem_cons_of_mem _ hb))]

theorem filter_ne_key_id {α : Type} (l : List α) (key : α → Nat) (i : Nat)
    (h : ∀ b ∈ l, key b ≠ i) :
    l.filter (fun a => !(key a == i)) = l := by
  rw [List.filter_eq_self]
  intro b hb
  simpa using h b hb

theorem sum_map_ite_key {α : Type} (l : List α) (key : α → Nat) (i : Nat)
    (f : α → α) (w : α → Int) (hnd : (l.map key).Nodup) :
    ((l.map (fun a => if key a == i then f a else a)).map w).sum =
      (l.map w).sum +
        (match l.find? (fun a => key a == i) with
         | some a => w (f a) - w a
         | none => 0) := by
  induction l with
  | nil => simp
  | cons a l ih =>
    simp only [List.map_cons, List.nodup_cons] at hnd
    obtain ⟨hna, hnd⟩ := hnd
    by_cases h : key a = i
    · have hrest : ∀ b ∈ l, key b ≠ i := by
        intro b hb hbi
        exact hna (h ▸ hbi ▸ List.mem_map_of_mem key hb)
      have ha : (key a == i) = true := by simpa using h
      simp only [List.map_cons, ha, if_true, List.find?_cons, List.sum_cons,
        map_ite_key_id l key i f hrest]
      ring
    · have ha : (key a == i) = false := by simpa using h
      simp only [List.map_cons, ha, Bool.false_eq_true, if_false, List.find?_cons,
        List.sum_cons, ih hnd]
      ring

theorem sum_filter_ne_key {α : Type} (l : List α) (key : α → Nat) (i : Nat)
    (w : α → Int) (hnd : (l.map key).Nodup) :
    ((l.filter (fun a => !(key a == i))).map w).sum =
      (l.map w).sum -
        (match l.find? (fun a => key a == i) with
         | some a => w a
         | none => 0) := by
  induction l with
  | nil => simp
  | cons a l ih =>
    simp only [List.map_cons, List.nodup_cons] at hnd
    obtain ⟨hna, hnd⟩ := hnd
    by_cases h : key a = i
    · have hrest : ∀ b ∈ l, key b ≠ i := by
        intro b hb hbi
        exact hna (h ▸ hbi ▸ List.mem_map_of_mem key hb)
      have ha : (key a == i) = true := by simpa using h
      simp only [List.filter_cons, ha, Bool.not_true, Bool.false_eq_true, if_false,
        List.find?_cons, List.map_cons, List.sum_cons,
        filter_ne_key_id l key i hrest]
      ring
    · have ha : (key a == i) = false := by simpa using h
      simp only [List.filter_cons, ha, Bool.not_false, if_true, List.find?_cons,
        Bool.false_eq_true, List.map_cons, List.sum_cons, ih hnd]
      ring

theorem find?_map_ite_key {α : Type} (l : List α) (key : α → Nat) (i : Nat) (f : α → α)
    (hf : ∀ a, key (f a) = key a) :
    (l.map (fun a => if key a == i then f a else a)).find? (fun a => key a == i) =
      (l.find? (fun a => key a == i)).map f := by
  induction l with
  | nil => rfl
  | cons a l ih =>
    by_cases h : key a = i
    · have ha : (key a == i) = true := by simpa using h
      have ha2 : (key (f a) == i) = true := by simp [hf, h]
      simp only [List.map_cons, ha, if_true, List.find?_cons, ha2, Option.map_some']
    · have ha : (key a == i) = false := by simpa using h
      simp only [List.map_cons, ha, Bool.false_eq_true, if_false, List.find?_cons, ih]

theorem map_key_eq {α : Type} (l : List α) (key : α → Nat) (g : α → α)
    (hg : ∀ a, key (g a) = key a) : (l.map g).map key = l.map key := by
  induction l with
  | nil => rfl
  | cons a l ih => simp [hg, ih]

theorem insertPaymentRow_some {d : String} {sid : Nat} {amt : Int} {mode : String}
    {pid : Option Nat} {ref notes : Option String} {db db1 : DB}
    (h : insertPaymentRow d sid amt mode pid ref notes db = some db1) :
    supplierExists db sid = true ∧
    (pid.isSome = true → purchaseExists db (pid.getD 0) = true) ∧
    db1 = { db with
      payments := db.payments ++ [⟨db.nextPaymentId, d, sid, pid, amt, mode, ref, notes⟩],
      nextPaymentId := db.nextPaymentId + 1,
      suppliers := db.suppliers.map (fun s =>
        if s.id == sid then { s with balance := s.balance - amt } else s) } := by
  unfold insertPaymentRow at h
  split at h
  · exact absurd h (by simp)
  · split at h
    · exact absurd h (by simp)
    · rename_i h1 h2
      refine ⟨by simpa using h1, ?_, by injection h with h3; exact h3.symm⟩
      intro hs
      by_contra hp
      exact h2 ⟨hs, by simpa using hp⟩

theorem finishCreate_shape (fp : FaultPt) (d : String) (sid : Nat) (amt : Int)
    (mode : String) (pid : Option Nat) (ref notes : Option String) (db : DB) :
    (Payment.finishCreate fp d sid amt mode pid ref notes db).2 = db ∨
    ∃ db1, insertPaymentRow d sid amt mode pid ref notes db = some db1 ∧
      (Payment.finishCreate fp d sid amt mode pid ref notes db).1 = .ok db.nextPaymentId ∧
      ((truthy pid = true ∧
          (Payment.finishCreate fp d sid amt mode pid ref notes db).2 =
            bumpPurchase db1 (pid.getD 0) amt) ∨
       (truthy pid = false ∧
          (Payment.finishCreate fp d sid amt mode pid ref notes db).2 = db1)) := by
  unfold Payment.finishCreate
  split
  · exact Or.inl rfl
  · split
    · exact Or.inl rfl
    · rename_i db1 hins
      by_cases htr : truthy pid = true
      · rw [if_pos htr]
        split
        · exact Or.inl rfl
        · split
          · exact Or.inl rfl
          · exact Or.inr ⟨db1, hins, rfl, Or.inl ⟨htr, rfl⟩⟩
      · rw [if_neg htr]
        split
        · exact Or.inl rfl
        · exact Or.inr ⟨db1, hins, rfl,
            Or.inr ⟨by simpa using htr, rfl⟩⟩

theorem payCreateF_shape (fp : FaultPt) (d : String) (sid : Nat) (amt : Int)
    (mode : String) (pid : Option Nat) (ref notes : Option String) (db : DB) :
    (Payment.createF fp d sid amt mode pid ref notes db).2 = db ∨
    (0 < amt ∧ validMode mode = true ∧
     ∃ db1, insertPaymentRow d sid amt mode pid ref notes db = some db1 ∧
      (Payment.createF fp d sid amt mode pid ref notes db).1 = .ok db.nextPaymentId ∧
      ((truthy pid = true ∧
          (∃ pur, db.purchases.find?
              (fun p => p.id == pid.getD 0 && p.supplier_id == sid) = some pur ∧
            amt ≤ pur.amount - pur.paid_amount) ∧
          (Payment.createF fp d sid amt mode pid ref notes db).2 =
            bumpPurchase db1 (pid.getD 0) amt) ∨
       (truthy pid = false ∧
          (Payment.createF fp d sid amt mode pid ref notes db).2 = db1))) := by
  unfold Payment.createF
  split
  · exact Or.inl rfl
  · rename_i hamt
    split
    · exact Or.inl rfl
    · rename_i hmode
      split
      · exact Or.inl rfl
      · split
        · rename_i htr
          split
          · exact Or.inl rfl
          · rename_i pur hfind
            split
            · exact Or.inl rfl
            · rename_i hout
              rcases finishCreate_shape fp d sid amt mode pid ref notes db with
                heq | ⟨db1, hins, hok, hcase⟩
              · exact Or.inl heq
              · refine Or.inr ⟨by omega, by simpa using hmode, db1, hins, hok, ?_⟩
                rcases hcase with ⟨ht, he⟩ | ⟨ht, he⟩
                · exact Or.inl ⟨ht, ⟨pur, hfind, by omega⟩, he⟩
                · exact absurd ht (by simp [htr])
        · rename_i htr
          rcases finishCreate_shape fp d sid amt mode pid ref notes db with
            heq | ⟨db1, hins, hok, hcase⟩
          · exact Or.inl heq
          · refine Or.inr ⟨by omega, by simpa using hmode, db1, hins, hok, ?_⟩
            rcases hcase with ⟨ht, he⟩ | ⟨ht, he⟩
            · exact absurd ht (by simp_all)
            · exact Or.inr ⟨ht, he⟩

theorem truthy_some {o : Option Nat} (h : truthy o = true) :
    ∃ n, o = some n ∧ n ≠ 0 ∧ o.getD 0 = n := by
  match o with
  | none => simp [truthy] at h
  | some n => exact ⟨n, rfl, by simpa [truthy] using h, rfl⟩

theorem find?_key_eq_of_mem {α : Type} (l : List α) (key : α → Nat) (n : Nat) (a : α)
    (hnd : (l.map key).Nodup) (ha : a ∈ l) (hk : key a = n) :
    l.find? (fun b => key b == n) = some a := by
  induction l with
  | nil => cases ha
  | cons b l ih =>
    simp only [List.map_cons, List.nodup_cons] at hnd
    obtain ⟨hnb, hnd⟩ := hnd
    rcases List.mem_cons.mp ha with rfl | ha2
    · simp [List.find?_cons, hk]
    · have hb : (key b == n) = false := by
        simp only [beq_eq_false_iff_ne, ne_eq]
        intro hbn
        exact hnb (hbn ▸ hk ▸ List.mem_map_of_mem key ha2)
      simp only [List.find?_cons, hb]
      exact ih hnd ha2

theorem WF_map_payments (db : DB) (g : PaymentRow → PaymentRow)
    (hg : ∀ q, (g q).id = q.id) (h : WF db) :
    WF { db with payments := db.payments.map g } := by
  obtain ⟨h1, h2, h3, h4, h5, h6⟩ := h
  refine ⟨?_, ?_, h3, h4, h5, h6⟩
  · show ((db.payments.map g).map (fun q => q.id)).Nodup
    rw [map_key_eq _ _ _ hg]
    exact h1
  · intro q hq
    obtain ⟨r, hr, rfl⟩ := List.mem_map.mp hq
    exact hg r ▸ h2 r hr

theorem WF_map_purchases (db : DB) (g : PurchaseRow → PurchaseRow)
    (hg : ∀ p, (g p).id = p.id) (h : WF db) :
    WF { db with purchases := db.purchases.map g } := by
  obtain ⟨h1, h2, h3, h4, h5, h6⟩ := h
  refine ⟨h1, h2, ?_, ?_, ?_, h6⟩
  · show ((db.purchases.map g).map (fun p => p.id)).Nodup
    rw [map_key_eq _ _ _ hg]
    exact h3
  · intro p hp
    obtain ⟨r, hr, rfl⟩ := List.mem_map.mp hp
    exact hg r ▸ h4 r hr
  · intro p hp
    obtain ⟨r, hr, rfl⟩ := List.mem_map.mp hp
    exact hg r ▸ h5 r hr

theorem bumpPurchase_id {n : Nat} {delta : Int} (p : PurchaseRow) :
    (if p.id == n then { p with paid_amount := p.paid_amount + delta } else p).id = p.id := by
  by_cases hp : (p.id == n) = true <;> simp [hp]

theorem bumpPurchase_WF (db : DB) (n : Nat) (delta : Int) (h : WF db) :
    WF (bumpPurchase db n delta) :=
  WF_map_purchases db _ (fun p => bumpPurchase_id p) h

theorem WF_filter_payments (db : DB) (f : PaymentRow → Bool) (h : WF db) :
    WF { db with payments := db.payments.filter f } := by
  obtain ⟨h1, h2, h3, h4, h5, h6⟩ := h
  refine ⟨?_, ?_, h3, h4, h5, h6⟩
  · exact List.Nodup.sublist (List.Sublist.map _ (List.filter_sublist _)) h1
  · intro q hq
    exact h2 q (List.mem_filter.mp hq).1

theorem WF_append_payment (db : DB) (row : PaymentRow) (S : List SupplierRow)
    (hrow : row.id = db.nextPaymentId) (h : WF db) :
    WF { db with payments := db.payments ++ [row],
                 nextPaymentId := db.nextPaymentId + 1, suppliers := S } := by
  obtain ⟨h1, h2, h3, h4, h5, h6⟩ := h
  refine ⟨?_, ?_, h3, h4, h5, h6⟩
  · simp only [List.map_append, List.map_cons, List.map_nil]
    rw [List.nodup_append]
    refine ⟨h1, List.nodup_singleton _, ?_⟩
    intro x hx hx2
    simp only [List.mem_singleton] at hx2
    subst hx2
    obtain ⟨q, hq, hqid⟩ := List.mem_map.mp hx
    rw [hrow] at hqid
    exact absurd (hqid ▸ h2 q hq) (lt_irrefl _)
  · intro q hq
    rcases List.mem_append.mp hq with hq | hq
    · exact Nat.lt_succ_of_lt (h2 q hq)
    · simp only [List.mem_singleton] at hq
      subst hq
      rw [hrow]
      exact Nat.lt_succ_self _

theorem none_beq_some {α : Type} [BEq α] (a : α) : ((none : Option α) == some a) = false := rfl

theorem some_beq_some {α : Type} [BEq α] (a b : α) :
    ((some a : Option α) == some b) = (a == b) := rfl

theorem payCreate_I2 (fp : FaultPt) (d : String) (sid : Nat) (amt : Int) (mode : String)
    (pid : Option Nat) (ref notes : Option String) (db : DB)
    (hWF : WF db) (h2 : invI2 db) :
    invI2 (Payment.createF fp d sid amt mode pid ref notes db).2 := by
  obtain ⟨hnd, hlt, pnd, plt, pge, pnx⟩ := hWF
  rcases payCreateF_shape fp d sid amt mode pid ref notes db with
    heq | ⟨hamt, hmode, db1, hins, hok, hcase⟩
  · rw [heq]; exact h2
  · obtain ⟨hsup, hfk, hdb1⟩ := insertPaymentRow_some hins
    subst hdb1
    rcases hcase with ⟨htr, ⟨pur, hfind, hout⟩, heq2⟩ | ⟨htr, heq2⟩
    · obtain ⟨n, rfl, hn0, hget⟩ := truthy_some htr
      rw [heq2, hget]
      unfold invI2 paymentsSumFor bumpPurchase
      dsimp only
      intro pur2 hmem
      obtain ⟨p, hp, rfl⟩ := List.mem_map.mp hmem
      rw [List.map_append, List.sum_append]
      have h2p := h2 p hp
      unfold paymentsSumFor at h2p
      by_cases hpn : p.id = n
      · have hb : (p.id == n) = true := by simpa using hpn
        simp only [hb, if_true, List.map_cons, List.map_nil, List.sum_cons, List.sum_nil,
          add_zero, some_beq_some]
        rw [show ({ p with paid_amount := p.paid_amount + amt } : PurchaseRow).id = p.id from rfl]
        rw [hpn] at h2p ⊢
        simp only [beq_self_eq_true, if_true]
        rw [h2p]
      · have hb : (p.id == n) = false := by simpa using hpn
        simp only [hb, Bool.false_eq_true, if_false, List.map_cons, List.map_nil,
          List.sum_cons, List.sum_nil, add_zero, some_beq_some]
        have hw : (n == p.id) = false := by
          simp only [beq_eq_false_iff_ne, ne_eq]
          intro h
          exact hpn h.symm
        rw [hw]
        simp only [Bool.false_eq_true, if_false, add_zero]
        exact h2p
    · rw [heq2]
      unfold invI2 paymentsSumFor
      dsimp only
      intro pur2 hmem
      rw [List.map_append, List.sum_append]
      have h2p := h2 pur2 hmem
      unfold paymentsSumFor at h2p
      rcases pid with _ | n
      · simp only [List.map_cons, List.map_nil, List.sum_cons, List.sum_nil, add_zero,
          none_beq_some, Bool.false_eq_true, if_false]
        simpa using h2p
      · have hn0 : n = 0 := by simpa [truthy] using htr
        subst hn0
        have hw : ((0 : Nat) == pur2.id) = false := by
          simp only [beq_eq_false_iff_ne, ne_eq]
          intro h
          have := pge pur2 hmem
          omega
        simp only [List.map_cons, List.map_nil, List.sum_cons, List.sum_nil, add_zero,
          some_beq_some, hw, Bool.false_eq_true, if_false]
        simpa using h2p

theorem payCreate_WF (fp : FaultPt) (d : String) (sid : Nat) (amt : Int) (mode : String)
    (pid : Option Nat) (ref notes : Option String) (db : DB) (hWF : WF db) :
    WF (Payment.createF fp d sid amt mode pid ref notes db).2 := by
  rcases payCreateF_shape fp d sid amt mode pid ref notes db with
    heq | ⟨_, _, db1, hins, _, hcase⟩
  · rw [heq]; exact hWF
  · obtain ⟨_, _, hdb1⟩ := insertPaymentRow_some hins
    have hWF1 : WF db1 := by
      rw [hdb1]
      exact WF_append_payment db _ _ rfl hWF
    rcases hcase with ⟨_, _, heq2⟩ | ⟨_, heq2⟩
    · rw [heq2]; exact bumpPurchase_WF db1 _ _ hWF1
    · rw [heq2]; exact hWF1

theorem payCreate_I3 (fp : FaultPt) (d : String) (sid : Nat) (amt : Int) (mode : String)
    (pid : Option Nat) (ref notes : Option String) (db : DB)
    (hWF : WF db) (h3 : invI3 db) :
    invI3 (Payment.createF fp d sid amt mode pid ref notes db).2 := by
  obtain ⟨hnd, hlt, pnd, plt, pge, pnx⟩ := hWF
  rcases payCreateF_shape fp d sid amt mode pid ref notes db with
    heq | ⟨hamt, hmode, db1, hins, hok, hcase⟩
  · rw [heq]; exact h3
  · obtain ⟨hsup, hfk, hdb1⟩ := insertPaymentRow_some hins
    subst hdb1
    rcases hcase with ⟨htr, ⟨pur, hfind, hout⟩, heq2⟩ | ⟨htr, heq2⟩
    · obtain ⟨n, rfl, hn0, hget⟩ := truthy_some htr
      rw [heq2, hget]
      rw [hget] at hfind
      obtain ⟨hpurid, hpursid⟩ : pur.id = n ∧ pur.supplier_id = sid := by
        have hpurP := List.find?_some hfind
        simpa using hpurP
      have hpurmem : pur ∈ db.purchases := List.mem_of_find?_eq_some hfind
      have hfind2 : db.purchases.find? (fun p => p.id == n) = some pur :=
        find?_key_eq_of_mem _ (fun p => p.id) n pur pnd hpurmem hpurid
      have hA : ∀ t : Nat,
          ((db.purchases.map (fun p =>
              if p.id == n then { p with paid_amount := p.paid_amount + amt } else p)).map
            (fun p => if p.supplier_id == t then p.amount else 0)).sum
          = (db.purchases.map (fun p => if p.supplier_id == t then p.amount else 0)).sum := by
        intro t
        rw [List.map_map]
        refine congrArg List.sum (List.map_congr_left ?_)
        intro p hp
        by_cases hpn : (p.id == n) = true <;> simp [hpn, Function.comp]
      have hP : ∀ t : Nat,
          ((db.purchases.map (fun p =>
              if p.id == n then { p with paid_amount := p.paid_amount + amt } else p)).map
            (fun p => if p.supplier_id == t then p.paid_amount else 0)).sum
          = (db.purchases.map (fun p => if p.supplier_id == t then p.paid_amount else 0)).sum
            + (if (sid == t) = true then amt else 0) := by
        intro t
        rw [sum_map_ite_key db.purchases (fun p => p.id) n _ _ pnd, hfind2]
        have hb : (pur.id == n) = true := by simpa using hpurid
        simp only [hb, if_true]
        rw [hpursid]
        by_cases hst : (sid == t) = true
        · simp only [hst, if_true]
          ring
        · simp only [hst, Bool.false_eq_true, if_false]
          ring
      unfold invI3 bumpPurchase
      intro s2 hmem
      simp only [List.mem_map] at hmem
      obtain ⟨s, hs, rfl⟩ := hmem
      have h3s := h3 s hs
      unfold purchAmtSum purchPaidSum unlinkedPaySum at h3s ⊢
      simp only [List.map_append, List.sum_append, List.map_cons, List.map_nil,
        List.sum_cons, List.sum_nil, add_zero, some_beq_some, Option.isNone_some,
        Bool.and_false, Bool.false_eq_true, if_false]
      by_cases hss : (s.id == sid) = true
      · have hseq : s.id = sid := by simpa using hss
        have hst : (sid == s.id) = true := by simpa using hseq.symm
        simp only [hss, if_true, hst]
        rw [hA, hP]
        simp only [hst, if_true]
        linarith [h3s]
      · have hst : (sid == s.id) = false := by
          simp only [beq_eq_false_iff_ne, ne_eq]
          intro h
          exact absurd (by simpa using h.symm) hss
        simp only [hss, Bool.false_eq_true, if_false]
        rw [hA, hP]
        simp only [hst, Bool.false_eq_true, if_false, add_zero]
        linarith [h3s]
    · rw [heq2]
      rcases pid with _ | n
      · unfold invI3
        intro s2 hmem
        simp only [List.mem_map] at hmem
        obtain ⟨s, hs, rfl⟩ := hmem
        have h3s := h3 s hs
        unfold purchAmtSum purchPaidSum unlinkedPaySum at h3s ⊢
        simp only [List.map_append, List.sum_append, List.map_cons, List.map_nil,
          List.sum_cons, List.sum_nil, add_zero, Option.isNone_none, Bool.and_true]
        by_cases hss : (s.id == sid) = true
        · have hseq : s.id = sid := by simpa using hss
          have hst : (sid == s.id) = true := by simpa using hseq.symm
          simp only [hss, if_true, hst]
          linarith [h3s]
        · have hst : (sid == s.id) = false := by
            simp only [beq_eq_false_iff_ne, ne_eq]
            intro h
            exact absurd (by simpa using h.symm) hss
          simp only [hss, Bool.false_eq_true, if_false, hst, add_zero]
          linarith [h3s]
      · have hn0 : n = 0 := by simpa [truthy] using htr
        subst hn0
        have hex : purchaseExists db 0 = true := hfk rfl
        obtain ⟨p, hp, hp0⟩ := List.any_eq_true.mp hex
        have hid0 : p.id = 0 := by simpa using hp0
        have := pge p hp
        omega

theorem purchCreate_WF (d : String) (sid : Nat) (amt : Int) (bill : Option String)
    (paid : Int) (items notes : Option String) (db : DB) (h : WF db) :
    WF (Purchase.create d sid amt bill paid items notes db).2 := by
  unfold Purchase.create
  split
  · exact h
  split
  · exact h
  split
  · exact h
  split
  · exact h
  obtain ⟨h1, h2, h3, h4, h5, h6⟩ := h
  refine ⟨h1, h2, ?_, ?_, ?_, ?_⟩
  · simp only [List.map_append, List.map_cons, List.map_nil]
    rw [List.nodup_append]
    refine ⟨h3, List.nodup_singleton _, ?_⟩
    intro x hx hx2
    simp only [List.mem_singleton] at hx2
    subst hx2
    obtain ⟨p, hp, hpid⟩ := List.mem_map.mp hx
    exact absurd (hpid ▸ h4 p hp) (lt_irrefl _)
  · intro p hp
    rcases List.mem_append.mp hp with hp | hp
    · exact Nat.lt_succ_of_lt (h4 p hp)
    · simp only [List.mem_singleton] at hp
      subst hp
      exact Nat.lt_succ_self _
  · intro p hp
    rcases List.mem_append.mp hp with hp | hp
    · exact h5 p hp
    · simp only [List.mem_singleton] at hp
      subst hp
      exact h6
  · exact Nat.le_succ_of_le h6

theorem purchCreate_I3 (d : String) (sid : Nat) (amt : Int) (bill : Option String)
    (paid : Int) (items notes : Option String) (db : DB) (h3 : invI3 db) :
    invI3 (Purchase.create d sid amt bill paid items notes db).2 := by
  unfold Purchase.create
  split
  · exact h3
  split
  · exact h3
  split
  · exact h3
  split
  · exact h3
  unfold invI3
  intro s2 hmem
  simp only [List.mem_map] at hmem
  obtain ⟨s, hs, rfl⟩ := hmem
  have h3s := h3 s hs
  unfold purchAmtSum purchPaidSum unlinkedPaySum at h3s ⊢
  simp only [List.map_append, List.sum_append, List.map_cons, List.map_nil,
    List.sum_cons, List.sum_nil, add_zero]
  by_cases hss : (s.id == sid) = true
  · have hseq : s.id = sid := by simpa using hss
    have hst : (sid == s.id) = true := by simpa using hseq.symm
    simp only [hss, if_true, hst]
    linarith [h3s]
  · have hst : (sid == s.id) = false := by
      simp only [beq_eq_false_iff_ne, ne_eq]
      intro h
      exact absurd (by simpa using h.symm) hss
    simp only [hss, Bool.false_eq_true, if_false, hst, add_zero]
    linarith [h3s]

theorem paymentPatch_id (d : Option String) (amt : Option Int) (mode ref notes : Option String)
    (q : PaymentRow) : (paymentPatch d amt mode ref notes q).id = q.id := rfl

theorem paymentPatch_purchase_id (d : Option String) (amt : Option Int)
    (mode ref notes : Option String) (q : PaymentRow) :
    (paymentPatch d amt mode ref notes q).purchase_id = q.purchase_id := rfl

theorem paymentPatch_supplier_id (d : Option String) (amt : Option Int)
    (mode ref notes : Option String) (q : PaymentRow) :
    (paymentPatch d amt mode ref notes q).supplier_id = q.supplier_id := rfl

theorem paymentPatch_amount (d : Option String) (amt : Option Int)
    (mode ref notes : Option String) (q : PaymentRow) :
    (paymentPatch d amt mode ref notes q).amount = amt.getD q.amount := rfl

theorem payGet_some {db : DB} {i : Nat} {cur : PaymentRow}
    (h : Payment.get_by_id db i = some cur) :
    db.payments.find? (fun q => q.id == i) = some cur ∧
    supplierExists db cur.supplier_id = true := by
  unfold Payment.get_by_id at h
  split at h
  · exact absurd h (by simp)
  · rename_i q hq
    split at h
    · rename_i hsup
      injection h with h
      subst h
      exact ⟨hq, hsup⟩
    · exact absurd h (by simp)

theorem purchGet_some {db : DB} {i : Nat} {cur : PurchaseRow}
    (h : Purchase.get_by_id db i = some cur) :
    db.purchases.find? (fun p => p.id == i) = some cur ∧
    supplierExists db cur.supplier_id = true := by
  unfold Purchase.get_by_id at h
  split at h
  · exact absurd h (by simp)
  · rename_i q hq
    split at h
    · rename_i hsup
      injection h with h
      subst h
      exact ⟨hq, hsup⟩
    · exact absurd h (by simp)

theorem payUpdate_shape (i : Nat) (d : Option String) (amt : Option Int)
    (mode ref notes : Option String) (db : DB) :
    (Payment.update i d amt mode ref notes db).2 = db ∨
    ∃ cur, db.payments.find? (fun q => q.id == i) = some cur ∧
      ((amt.isSome = true ∧ truthy cur.purchase_id = true ∧
        (Payment.update i d amt mode ref notes db).2 =
          bumpPurchase
            { db with payments := db.payments.map (fun q =>
                if q.id == i then paymentPatch d amt mode ref notes q else q) }
            (cur.purchase_id.getD 0) (amt.getD 0 - cur.amount)) ∨
       (¬(amt.isSome = true ∧ truthy cur.purchase_id = true) ∧
        (Payment.update i d amt mode ref notes db).2 =
          { db with payments := db.payments.map (fun q =>
              if q.id == i then paymentPatch d amt mode ref notes q else q) })) := by
  rcases hget : Payment.get_by_id db i with _ | cur
  · unfold Payment.update
    simp only [hget]
    exact Or.inl trivial
  · obtain ⟨hfind, hsup⟩ := payGet_some hget
    unfold Payment.update
    simp only [hget]
    split
    · exact Or.inl rfl
    · split
      · rename_i hl
        split
        · exact Or.inl rfl
        · split
          · exact Or.inl rfl
          · unfold Payment.updateRest
            rw [if_pos hl]
            split
            · exact Or.inl rfl
            · split
              · exact Or.inl rfl
              · exact Or.inr ⟨cur, hfind, Or.inl ⟨hl.1, hl.2, rfl⟩⟩
      · rename_i hl
        unfold Payment.updateRest
        rw [if_neg hl]
        split
        · exact Or.inl rfl
        · split
          · exact Or.inl rfl
          · exact Or.inr ⟨cur, hfind, Or.inr ⟨hl, rfl⟩⟩

theorem payDelete_shape (i : Nat) (db : DB) :
    (Payment.delete i db).2 = db ∨
    ∃ pay, db.payments.find? (fun q => q.id == i) = some pay ∧
      ((truthy pay.purchase_id = true ∧
        (Payment.delete i db).2 =
          { bumpPurchase db (pay.purchase_id.getD 0) (-pay.amount) with
            payments := db.payments.filter (fun q => !(q.id == i)) }) ∨
       (truthy pay.purchase_id = false ∧
        (Payment.delete i db).2 =
          { db with payments := db.payments.filter (fun q => !(q.id == i)) })) := by
  rcases hget : Payment.get_by_id db i with _ | pay
  · unfold Payment.delete
    simp only [hget]
    exact Or.inl trivial
  · obtain ⟨hfind, hsup⟩ := payGet_some hget
    unfold Payment.delete
    simp only [hget]
    by_cases htr : truthy pay.purchase_id = true
    · rw [if_pos htr]
      exact Or.inr ⟨pay, hfind, Or.inl ⟨htr, rfl⟩⟩
    · rw [if_neg htr]
      exact Or.inr ⟨pay, hfind, Or.inr ⟨by simpa using htr, rfl⟩⟩

theorem payUpdate_WF (i : Nat) (d : Option String) (amt : Option Int)
    (mode ref notes : Option String) (db : DB) (hWF : WF db) :
    WF (Payment.update i d amt mode ref notes db).2 := by
  rcases payUpdate_shape i d amt mode ref notes db with heq | ⟨cur, hfind, hcase⟩
  · rw [heq]; exact hWF
  · have hmap : WF { db with payments := db.payments.map (fun q =>
        if q.id == i then paymentPatch d amt mode ref notes q else q) } := by
      refine WF_map_payments db _ ?_ hWF
      intro q
      by_cases hq : (q.id == i) = true <;> simp [hq, paymentPatch_id]
    rcases hcase with ⟨_, _, heq2⟩ | ⟨_, heq2⟩
    · rw [heq2]; exact bumpPurchase_WF _ _ _ hmap
    · rw [heq2]; exact hmap

theorem payDelete_WF (i : Nat) (db : DB) (hWF : WF db) :
    WF (Payment.delete i db).2 := by
  rcases payDelete_shape i db with heq | ⟨pay, hfind, hcase⟩
  · rw [heq]; exact hWF
  · rcases hcase with ⟨_, heq2⟩ | ⟨_, heq2⟩
    · rw [heq2]
      exact WF_filter_payments (bumpPurchase db _ _) _ (bumpPurchase_WF db _ _ hWF)
    · rw [heq2]
      exact WF_filter_payments db _ hWF

theorem payUpdate_I2 (i : Nat) (d : Option String) (amt : Option Int)
    (mode ref notes : Option String) (db : DB) (hWF : WF db) (h2 : invI2 db) :
    invI2 (Payment.update i d amt mode ref notes db).2 := by
  obtain ⟨hnd, hlt, pnd, plt, pge, pnx⟩ := hWF
  rcases payUpdate_shape i d amt mode ref notes db with heq | ⟨cur, hfind, hcase⟩
  · rw [heq]; exact h2
  · rcases hcase with ⟨hsome, htr, heq2⟩ | ⟨hnl, heq2⟩
    · obtain ⟨a, rfl⟩ : ∃ a, amt = some a := Option.isSome_iff_exists.mp hsome
      obtain ⟨n, hpid, hn0, hgetn⟩ := truthy_some htr
      rw [heq2, hgetn]
      unfold invI2 bumpPurchase paymentsSumFor
      intro pur2 hmem
      simp only [List.mem_map] at hmem
      obtain ⟨p, hp, rfl⟩ := hmem
      have h2p := h2 p hp
      unfold paymentsSumFor at h2p
      by_cases hpn : (p.id == n) = true
      · have hpeq : p.id = n := by simpa using hpn
        simp only [hpn, if_true]
        rw [sum_map_ite_key db.payments (fun q => q.id) i
          (paymentPatch d (some a) mode ref notes) _ hnd, hfind]
        simp only [paymentPatch_purchase_id, paymentPatch_amount, hpid, hpeq,
          some_beq_some, beq_self_eq_true, if_true, Option.getD_some]
        rw [hpeq] at h2p
        rw [h2p]
      · have hpeq : p.id ≠ n := by simpa using hpn
        simp only [hpn, Bool.false_eq_true, if_false]
        rw [sum_map_ite_key db.payments (fun q => q.id) i
          (paymentPatch d (some a) mode ref notes) _ hnd, hfind]
        have hw : (n == p.id) = false := by
          simp only [beq_eq_false_iff_ne, ne_eq]
          intro h
          exact hpeq h.symm
        simp only [paymentPatch_purchase_id, hpid, some_beq_some, hw,
          Bool.false_eq_true, if_false, sub_self, add_zero]
        exact h2p
    · rw [heq2]
      unfold invI2 paymentsSumFor
      intro p hp
      have h2p := h2 p hp
      unfold paymentsSumFor at h2p
      rw [sum_map_ite_key db.payments (fun q => q.id) i
        (paymentPatch d amt mode ref notes) _ hnd, hfind]
      have hdelta :
          (if (cur.purchase_id == some p.id) = true
             then (paymentPatch d amt mode ref notes cur).amount else 0)
          - (if (cur.purchase_id == some p.id) = true then cur.amount else 0) = 0 := by
        rcases hamt : amt with _ | a
        · simp only [paymentPatch_amount, hamt, Option.getD_none, sub_self]
        · have htr2 : truthy cur.purchase_id = false := by
            rcases ht : truthy cur.purchase_id with _ | _
            · rfl
            · exact absurd ⟨by simp [hamt], ht⟩ hnl
          rcases hpc : cur.purchase_id with _ | m
          · simp only [none_beq_some, Bool.false_eq_true, if_false, sub_self]
          · have hm0 : m = 0 := by simpa [truthy, hpc] using htr2
            subst hm0
            have hw : ((0 : Nat) == p.id) = false := by
              simp only [beq_eq_false_iff_ne, ne_eq]
              intro h
              have := pge p hp
              omega
            simp only [some_beq_some, hw, Bool.false_eq_true, if_false, sub_self]
      dsimp only
      simp only [paymentPatch_purchase_id]
      rw [hdelta, add_zero]
      exact h2p

theorem payDelete_I2 (i : Nat) (db : DB) (hWF : WF db) (h2 : invI2 db) :
    invI2 (Payment.delete i db).2 := by
  obtain ⟨hnd, hlt, pnd, plt, pge, pnx⟩ := hWF
  rcases payDelete_shape i db with heq | ⟨pay, hfind, hcase⟩
  · rw [heq]; exact h2
  · rcases hcase with ⟨htr, heq2⟩ | ⟨htr, heq2⟩
    · obtain ⟨n, hpid, hn0, hgetn⟩ := truthy_some htr
      rw [heq2, hgetn]
      unfold invI2 bumpPurchase paymentsSumFor
      intro pur2 hmem
      simp only [List.mem_map] at hmem
      obtain ⟨p, hp, rfl⟩ := hmem
      have h2p := h2 p hp
      unfold paymentsSumFor at h2p
      rw [sum_filter_ne_key db.payments (fun q => q.id) i _ hnd, hfind]
      by_cases hpn : (p.id == n) = true
      · have hpeq : p.id = n := by simpa using hpn
        simp only [hpn, if_true, hpid, hpeq, some_beq_some, beq_self_eq_true]
        rw [hpeq] at h2p
        rw [h2p]
        ring
      · have hpeq : p.id ≠ n := by simpa using hpn
        have hw : (n == p.id) = false := by
          simp only [beq_eq_false_iff_ne, ne_eq]
          intro h
          exact hpeq h.symm
        simp only [hpn, Bool.false_eq_true, if_false, hpid, some_beq_some, hw, sub_zero]
        exact h2p
    · rw [heq2]
      unfold invI2 paymentsSumFor
      intro p hp
      have h2p := h2 p hp
      unfold paymentsSumFor at h2p
      rw [sum_filter_ne_key db.payments (fun q => q.id) i _ hnd, hfind]
      dsimp only
      have hw : (pay.purchase_id == some p.id) = false := by
        rcases hpc : pay.purchase_id with _ | m
        · exact none_beq_some _
        · have hm0 : m = 0 := by simpa [truthy, hpc] using htr
          subst hm0
          simp only [some_beq_some, beq_eq_false_iff_ne, ne_eq]
          intro h
          have := pge p hp
          omega
      rw [hw]
      simp only [Bool.false_eq_true, if_false, sub_zero]
      exact h2p

theorem payOp_WF_I2 (op : PayOp) (db : DB) (h : WF db ∧ invI2 db) :
    WF (applyPayOp op db) ∧ invI2 (applyPayOp op db) := by
  obtain ⟨hWF, h2⟩ := h
  cases op with
  | createP d sid amt mode pid ref notes =>
    exact ⟨payCreate_WF .noFault d sid amt mode pid ref notes db hWF,
           payCreate_I2 .noFault d sid amt mode pid ref notes db hWF h2⟩
  | updateP i d amt mode ref notes =>
    exact ⟨payUpdate_WF i d amt mode ref notes db hWF,
           payUpdate_I2 i d amt mode ref notes db hWF h2⟩
  | deleteP i =>
    exact ⟨payDelete_WF i db hWF, payDelete_I2 i db hWF h2⟩

theorem payOps_WF_I2 (ops : List PayOp) (db : DB) (h : WF db ∧ invI2 db) :
    WF (applyPayOps ops db) ∧ invI2 (applyPayOps ops db) := by
  induction ops generalizing db with
  | nil => exact h
  | cons op ops ih => exact ih (applyPayOp op db) (payOp_WF_I2 op db h)

theorem createOp_WF_I3 (op : CreateOp) (db : DB) (h : WF db ∧ invI3 db) :
    WF (applyCreateOp op db) ∧ invI3 (applyCreateOp op db) := by
  obtain ⟨hWF, h3⟩ := h
  cases op with
  | purchaseC d sid amt bill paid items notes =>
    exact ⟨purchCreate_WF d sid amt bill paid items notes db hWF,
           purchCreate_I3 d sid amt bill paid items notes db h3⟩
  | paymentC d sid amt mode pid ref notes =>
    exact ⟨payCreate_WF .noFault d sid amt mode pid ref notes db hWF,
           payCreate_I3 .noFault d sid amt mode pid ref notes db hWF h3⟩

theorem createOps_WF_I3 (ops : List CreateOp) (db : DB) (h : WF db ∧ invI3 db) :
    WF (applyCreateOps ops db) ∧ invI3 (applyCreateOps ops db) := by
  induction ops generalizing db with
  | nil => exact h
  | cons op ops ih => exact ih (applyCreateOp op db) (createOp_WF_I3 op db h)

/-- The empty database right after schema initialisation. -/
def dbEmpty : DB := ⟨[], [], [], 1, 1, 1⟩

/-- One supplier (balance 600), one purchase (1000, paid 400) and one linked
payment (400): the state reached by scenarios A and B of the design
document. -/
def dbOne : DB :=
  ⟨[⟨1, "Acme", none, none, 600⟩],
   [⟨1, "2024-01-05", 1, none, 1000, 400, none, none⟩],
   [⟨1, "2024-01-06", 1, some 1, 400, "cash", none, none⟩],
   2, 2, 2⟩

/-- One supplier with one purchase (100, paid 40) and two payments (30 and
10): a state on which the double left join of Supplier.get_by_id multiplies
its aggregates. -/
def dbC8 : DB :=
  ⟨[⟨1, "Sup", none, none, 30⟩],
   [⟨1, "2024-01-05", 1, none, 100, 40, none, none⟩],
   [⟨1, "2024-01-06", 1, some 1, 30, "cash", none, none⟩,
    ⟨2, "2024-01-07", 1, some 1, 10, "cash", none, none⟩],
   2, 2, 3⟩

/-- One supplier with one purchase of amount 100 and paid_amount 50: the
invariant 0 <= paid_amount <= amount holds. -/
def dbC5 : DB :=
  ⟨[⟨1, "Sup", none, none, 50⟩],
   [⟨1, "2024-01-05", 1, none, 100, 50, none, none⟩],
   [], 2, 2, 1⟩

/-- C2: for every purchase, after any sequence of successful Payment.create,
Payment.update and Payment.delete calls, the purchase paid_amount equals the
sum of the amounts of the payment rows linked to it.  Formalised as
preservation: from any well-formed state in which the correspondence holds
(failing calls leave the state unchanged, so arbitrary call sequences are
covered), every sequence of Payment repository calls keeps it. -/
theorem c2_paid_amount_matches_payments (ops : List PayOp) (db : DB)
    (hWF : WF db) (h2 : invI2 db) :
    invI2 (applyPayOps ops db) :=
  (payOps_WF_I2 ops db ⟨hWF, h2⟩).2

theorem c2_paid_amount_matches_payments_witness :
    WF dbOne ∧ invI2 dbOne ∧
    invI2 (applyPayOps
      [PayOp.createP "2024-02-01" 1 100 "cash" none none none,
       PayOp.updateP 1 none (some 500) none none none,
       PayOp.deleteP 1] dbOne) :=
  ⟨by decide, by decide,
    c2_paid_amount_matches_payments
      [PayOp.createP "2024-02-01" 1 100 "cash" none none none,
       PayOp.updateP 1 none (some 500) none none none,
       PayOp.deleteP 1] dbOne (by decide) (by decide)⟩

/-- C3: for every supplier, after any sequence of successful Purchase.create
and Payment.create calls, the stored balance equals the from-scratch
aggregate: purchase amounts minus purchase paid_amounts minus unlinked
payment amounts.  Formalised as preservation from any well-formed state in
which the aggregate identity holds (such as a freshly created supplier). -/
theorem c3_balance_matches_aggregate (ops : List CreateOp) (db : DB)
    (hWF : WF db) (h3 : invI3 db) :
    invI3 (applyCreateOps ops db) :=
  (createOps_WF_I3 ops db ⟨hWF, h3⟩).2

theorem c3_balance_matches_aggregate_witness :
    WF dbOne ∧ invI3 dbOne ∧
    invI3 (applyCreateOps
      [CreateOp.purchaseC "2024-02-01" 1 1000 none 0 none none,
       CreateOp.paymentC "2024-02-02" 1 400 "cash" (some 2) none none,
       CreateOp.paymentC "2024-02-03" 1 50 "bank" none none none] dbOne) :=
  ⟨by decide, by decide,
    c3_balance_matches_aggregate
      [CreateOp.purchaseC "2024-02-01" 1 1000 none 0 none none,
       CreateOp.paymentC "2024-02-02" 1 400 "cash" (some 2) none none,
       CreateOp.paymentC "2024-02-03" 1 50 "bank" none none none] dbOne
      (by decide) (by decide)⟩

/-- C4: if Payment.create fails at any step - validation, the payment
INSERT, the linked purchase UPDATE, or the commit (fault injection models a
storage error at each write step) - then the transaction is rolled back: the
resulting state is exactly the caller state, and in particular no payment
row from this call (the row that would carry the fresh id) exists, and
purchase and supplier rows are unchanged. -/
theorem c4_create_atomic (fp : FaultPt) (d : String) (sid : Nat) (amt : Int)
    (mode : String) (pid : Option Nat) (ref notes : Option String) (db : DB) (e : Err)
    (hfresh : ∀ q ∈ db.payments, q.id < db.nextPaymentId)
    (herr : (Payment.createF fp d sid amt mode pid ref notes db).1 = .error e) :
    (Payment.createF fp d sid amt mode pid ref notes db).2 = db ∧
    ∀ q ∈ (Payment.createF fp d sid amt mode pid ref notes db).2.payments,
      q.id ≠ db.nextPaymentId := by
  rcases payCreateF_shape fp d sid amt mode pid ref notes db with
    heq | ⟨_, _, db1, hins, hok, _⟩
  · rw [heq]
    exact ⟨rfl, fun q hq => Nat.ne_of_lt (hfresh q hq)⟩
  · rw [herr] at hok
    exact absurd hok (by simp)

theorem c4_create_atomic_witness :
    (∀ q ∈ dbOne.payments, q.id < dbOne.nextPaymentId) ∧
    (Payment.createF .atLink "2024-02-01" 1 100 "cash" (some 1) none none dbOne).1 =
      .error .StorageFailure ∧
    (Payment.createF .atLink "2024-02-01" 1 100 "cash" (some 1) none none dbOne).2 = dbOne ∧
    (∀ q ∈ (Payment.createF .atLink "2024-02-01" 1 100 "cash" (some 1) none none dbOne).2.payments,
      q.id ≠ dbOne.nextPaymentId) :=
  ⟨by decide, by decide,
    (c4_create_atomic .atLink "2024-02-01" 1 100 "cash" (some 1) none none dbOne
      .StorageFailure (by decide) (by decide)).1,
    (c4_create_atomic .atLink "2024-02-01" 1 100 "cash" (some 1) none none dbOne
      .StorageFailure (by decide) (by decide)).2⟩

/-- C1: a payment-create call linked to an existing purchase of the same
supplier whose amount exceeds the outstanding amount (so that paid_amount
would exceed amount), and a payment-update call on a linked payment whose
new amount would push the recomputed paid_amount above the purchase amount,
both fail with ValidationError and return the state unchanged. -/
theorem c1_overpayment_rejected :
    (∀ (d : String) (sid : Nat) (amt : Int) (mode : String) (pid : Option Nat)
       (ref notes : Option String) (db : DB) (n : Nat) (pur : PurchaseRow),
      pid = some n → n ≠ 0 →
      supplierExists db sid = true →
      db.purchases.find? (fun p => p.id == n && p.supplier_id == sid) = some pur →
      pur.amount - pur.paid_amount < amt →
      Payment.create d sid amt mode pid ref notes db = (.error .ValidationError, db)) ∧
    (∀ (i : Nat) (d : Option String) (a : Int) (mode ref notes : Option String)
       (db : DB) (cur : PaymentRow) (n : Nat) (pur : PurchaseRow),
      Payment.get_by_id db i = some cur →
      cur.purchase_id = some n → n ≠ 0 →
      db.purchases.find? (fun p => p.id == n) = some pur →
      pur.amount < pur.paid_amount - cur.amount + a →
      Payment.update i d (some a) mode ref notes db = (.error .ValidationError, db)) := by
  constructor
  · intro d sid amt mode pid ref notes db n pur hpid hn0 hsup hfind hout
    subst hpid
    unfold Payment.create Payment.createF
    have htr : truthy (some n) = true := by simp [truthy, hn0]
    by_cases h1 : amt ≤ 0
    · rw [if_pos h1]
    · rw [if_neg h1]
      by_cases h2 : (!validMode mode) = true
      · rw [if_pos h2]
      · rw [if_neg h2]
        rw [if_neg (by simp [hsup])]
        rw [if_pos htr]
        simp only [Option.getD_some, hfind]
        rw [if_pos (by omega)]
  · intro i d a mode ref notes db cur n pur hget hpid hn0 hfind hover
    unfold Payment.update
    simp only [hget]
    by_cases h1 : (some a).isSome = true ∧ (some a).getD 0 ≤ 0
    · rw [if_pos h1]
    · rw [if_neg h1]
      have hl : (some a).isSome = true ∧ truthy cur.purchase_id = true :=
        ⟨rfl, by simp [hpid, truthy, hn0]⟩
      rw [if_pos hl]
      simp only [hpid, Option.getD_some, hfind]
      rw [if_pos (by omega)]

theorem c1_overpayment_rejected_witness :
    Payment.create "2024-02-01" 1 700 "cash" (some 1) none none dbOne =
      (.error .ValidationError, dbOne) ∧
    Payment.update 1 none (some 1100) none none none dbOne =
      (.error .ValidationError, dbOne) :=
  ⟨c1_overpayment_rejected.1 "2024-02-01" 1 700 "cash" (some 1) none none dbOne 1
      ⟨1, "2024-01-05", 1, none, 1000, 400, none, none⟩
      rfl (by decide) (by decide) (by decide) (by decide),
   c1_overpayment_rejected.2 1 none 1100 none none none dbOne
      ⟨1, "2024-01-06", 1, some 1, 400, "cash", none, none⟩ 1
      ⟨1, "2024-01-05", 1, none, 1000, 400, none, none⟩
      (by decide) (by decide) (by decide) (by decide) (by decide)⟩

/-- C7: deleting a supplier that has at least one purchase or at least one
payment fails with Conflict and removes no rows; deleting a purchase with at
least one linked payment fails with Conflict and removes no rows. -/
theorem c7_protected_deletes :
    (∀ (i : Nat) (db : DB),
      ((∃ p ∈ db.purchases, p.supplier_id = i) ∨ (∃ q ∈ db.payments, q.supplier_id = i)) →
      Supplier.delete i db = (.error .Conflict, db)) ∧
    (∀ (i : Nat) (db : DB),
      (∃ q ∈ db.payments, q.purchase_id = some i) →
      Purchase.delete i db = (.error .Conflict, db)) := by
  constructor
  · intro i db hex
    unfold Supplier.delete
    rw [if_pos ?_]
    rcases hex with ⟨p, hp, hpi⟩ | ⟨q, hq, hqi⟩
    · left
      rw [gt_iff_lt, List.length_pos]
      exact List.ne_nil_of_mem (List.mem_filter.mpr ⟨hp, by simpa using hpi⟩)
    · right
      rw [gt_iff_lt, List.length_pos]
      exact List.ne_nil_of_mem (List.mem_filter.mpr ⟨hq, by simpa using hqi⟩)
  · intro i db hex
    unfold Purchase.delete
    rw [if_pos ?_]
    obtain ⟨q, hq, hqi⟩ := hex
    rw [gt_iff_lt, List.length_pos]
    exact List.ne_nil_of_mem (List.mem_filter.mpr ⟨hq, by simpa using hqi⟩)

theorem c7_protected_deletes_witness :
    Supplier.delete 1 dbOne = (.error .Conflict, dbOne) ∧
    Purchase.delete 1 dbOne = (.error .Conflict, dbOne) :=
  ⟨c7_protected_deletes.1 1 dbOne
      (Or.inl ⟨⟨1, "2024-01-05", 1, none, 1000, 400, none, none⟩, by decide, rfl⟩),
   c7_protected_deletes.2 1 dbOne
      ⟨⟨1, "2024-01-06", 1, some 1, 400, "cash", none, none⟩, by decide, rfl⟩⟩

/-- C6: deleting a payment linked to a purchase returns True, removes
exactly the payment rows with that id, leaves every supplier row (balance
included) untouched, and decreases the linked purchase paid_amount by
exactly the payment amount. -/
theorem c6_delete_reverses_paid (i : Nat) (db : DB) (pay : PaymentRow) (n : Nat)
    (pur : PurchaseRow)
    (hget : Payment.get_by_id db i = some pay)
    (hpid : pay.purchase_id = some n) (hn0 : n ≠ 0)
    (hfind : db.purchases.find? (fun p => p.id == n) = some pur) :
    (Payment.delete i db).1 = .ok true ∧
    (Payment.delete i db).2.suppliers = db.suppliers ∧
    (Payment.delete i db).2.payments = db.payments.filter (fun q => !(q.id == i)) ∧
    (Payment.delete i db).2.purchases.find? (fun p => p.id == n) =
      some { pur with paid_amount := pur.paid_amount - pay.amount } := by
  unfold Payment.delete
  simp only [hget]
  have htr : truthy pay.purchase_id = true := by simp [hpid, truthy, hn0]
  rw [if_pos htr, hpid]
  simp only [Option.getD_some]
  refine ⟨by trivial, by trivial, by trivial, ?_⟩
  show (bumpPurchase db n (-pay.amount)).purchases.find? (fun p => p.id == n) = _
  unfold bumpPurchase
  rw [find?_map_ite_key db.purchases (fun p => p.id) n
    (fun p => { p with paid_amount := p.paid_amount + -pay.amount }) (fun p => rfl), hfind,
    Option.map_some']
  rw [sub_eq_add_neg]

theorem c6_delete_reverses_paid_witness :
    (Payment.delete 1 dbOne).1 = .ok true ∧
    (Payment.delete 1 dbOne).2.suppliers = dbOne.suppliers ∧
    (Payment.delete 1 dbOne).2.payments = dbOne.payments.filter (fun q => !(q.id == 1)) ∧
    (Payment.delete 1 dbOne).2.purchases.find? (fun p => p.id == 1) =
      some { id := 1, pdate := "2024-01-05", supplier_id := 1, bill_no := none,
             amount := 1000, paid_amount := 0, items := none, notes := none } := by
  have h := c6_delete_reverses_paid 1 dbOne
    ⟨1, "2024-01-06", 1, some 1, 400, "cash", none, none⟩ 1
    ⟨1, "2024-01-05", 1, none, 1000, 400, none, none⟩
    (by decide) (by decide) (by decide) (by decide)
  exact ⟨h.1, h.2.1, h.2.2.1, by rw [h.2.2.2]; rfl⟩

theorem c5_counterexample :
    purchasesInRange dbC5 ∧
    (Purchase.update 1 none none none (some 30) none none none dbC5).1 = .ok true ∧
    ¬ purchasesInRange (Purchase.update 1 none none none (some 30) none none none dbC5).2 :=
  ⟨by decide, by decide, by decide⟩

/-- C5 (amended): a successful Purchase.update preserves
0 <= paid_amount <= amount provided it supplies paid_amount, or does not
change amount, or supplies a new amount at least the stored paid_amount; an
update that lowers amount below the stored paid_amount while leaving
paid_amount unspecified succeeds and breaks the bound, because the source
only compares a supplied paid_amount against the new amount. -/
theorem c5_update_range (i : Nat) (d : Option String) (sid : Option Nat)
    (bill : Option String) (amt paid : Option Int) (items notes : Option String)
    (db db2 : DB) (b : Bool)
    (hnd : (db.purchases.map (fun p => p.id)).Nodup)
    (hrange : purchasesInRange db)
    (hguard : paid.isSome = true ∨ amt.isNone = true ∨
      (∀ cur, Purchase.get_by_id db i = some cur → cur.paid_amount ≤ amt.getD 0))
    (hupd : Purchase.update i d sid bill amt paid items notes db = (.ok b, db2)) :
    purchasesInRange db2 := by
  unfold Purchase.update at hupd
  split at hupd
  · exact absurd (congrArg Prod.fst hupd) (by simp)
  · rename_i cur hget
    obtain ⟨hfind, hsup⟩ := purchGet_some hget
    have hcurmem : cur ∈ db.purchases := List.mem_of_find?_eq_some hfind
    have hcurid : cur.id = i := by simpa using List.find?_some hfind
    split at hupd
    · exact absurd (congrArg Prod.fst hupd) (by simp)
    · split at hupd
      · exact absurd (congrArg Prod.fst hupd) (by simp)
      · split at hupd
        · exact absurd (congrArg Prod.fst hupd) (by simp)
        · split at hupd
          · exact absurd (congrArg Prod.fst hupd) (by simp)
          · rename_i hsidc hamtc hnegc hboundc
            split at hupd
            · injection hupd with h1 h2
              rw [← h2]
              exact hrange
            · injection hupd with h1 h2
              rw [← h2]
              intro p2 hp2
              simp only [List.mem_map] at hp2
              obtain ⟨p, hp, rfl⟩ := hp2
              by_cases hpi : (p.id == i) = true
              · have hpeq : p = cur := by
                  refine List.inj_on_of_nodup_map hnd hp hcurmem ?_
                  show p.id = cur.id
                  rw [hcurid]
                  simpa using hpi
                simp only [hpi, if_true]
                unfold purchasePatch
                rcases hpaid : paid with _ | q
                · rcases hamt2 : amt with _ | a
                  · simp only [Option.getD_none]
                    exact hrange p hp
                  · have hq : ∀ cur2, Purchase.get_by_id db i = some cur2 →
                        cur2.paid_amount ≤ amt.getD 0 := by
                      rcases hguard with hg | hg | hg
                      · rw [hpaid] at hg
                        simp at hg
                      · rw [hamt2] at hg
                        simp at hg
                      · exact hg
                    have hqc := hq cur hget
                    rw [hamt2] at hqc
                    simp only [Option.getD_none, Option.getD_some] at hqc ⊢
                    refine ⟨(hrange p hp).1, ?_⟩
                    rw [hpeq]
                    exact hqc
                · rw [hpaid] at hnegc hboundc
                  simp only [Option.isSome_some, Option.getD_some, true_and, not_lt,
                    gt_iff_lt] at hnegc hboundc
                  rcases hamt2 : amt with _ | a
                  · rw [hamt2] at hboundc
                    simp only [Option.getD_none, Option.getD_some]
                    rw [hpeq]
                    exact ⟨hnegc, hboundc⟩
                  · rw [hamt2] at hboundc
                    simp only [Option.getD_some]
                    exact ⟨hnegc, hboundc⟩
              · simp only [hpi, Bool.false_eq_true, if_false]
                exact hrange p hp

theorem c5_update_range_witness :
    (dbC5.purchases.map (fun p => p.id)).Nodup ∧ purchasesInRange dbC5 ∧
    purchasesInRange (Purchase.update 1 none none none (some 60) (some 20) none none dbC5).2 := by
  refine ⟨by decide, by decide, ?_⟩
  have h : Purchase.update 1 none none none (some 60) (some 20) none none dbC5 =
      ((.ok true : Except Err Bool),
        (Purchase.update 1 none none none (some 60) (some 20) none none dbC5).2) := by
    decide
  exact c5_update_range 1 none none none (some 60) (some 20) none none dbC5
    (Purchase.update 1 none none none (some 60) (some 20) none none dbC5).2 true
    (by decide) (by decide) (Or.inl (by decide)) h

theorem c8_counterexample :
    (Supplier.get_by_id dbC8 1).map (fun r => r.2.1) = some 2 ∧
    (purchasesOf dbC8 1).length = 1 ∧
    (Supplier.get_by_id dbC8 1).map (fun r => r.2.2.1) = some 200 ∧
    ((purchasesOf dbC8 1).map (fun p => p.amount)).sum = 100 :=
  ⟨by decide, by decide, by decide, by decide⟩

/-- C8 (amended): Supplier.get_by_id computes its aggregates over the cross
product of the supplier purchases and payments produced by the two
independent left joins: total_purchases is the purchase count multiplied by
max(payment count, 1), total_purchase_amount and total_paid_amount are the
true purchase sums multiplied by max(payment count, 1), and total_payments
is the true payment sum multiplied by max(purchase count, 1).  The reported
values equal the true aggregates only when the multipliers are 1. -/
theorem c8_aggregates_multiplied (db : DB) (sid : Nat) (s : SupplierRow)
    (hfind : db.suppliers.find? (fun r => r.id == sid) = some s) :
    Supplier.get_by_id db sid = some (s,
      (purchasesOf db sid).length * max (paymentsOf db sid).length 1,
      (max (paymentsOf db sid).length 1 : Int) *
        ((purchasesOf db sid).map (fun p => p.amount)).sum,
      (max (paymentsOf db sid).length 1 : Int) *
        ((purchasesOf db sid).map (fun p => p.paid_amount)).sum,
      (max (purchasesOf db sid).length 1 : Int) *
        ((paymentsOf db sid).map (fun q => q.amount)).sum) := by
  unfold Supplier.get_by_id
  rw [hfind]
  have hcount : (crossRows (padded (purchasesOf db sid)) (padded (paymentsOf db sid))).countP
      (fun r => r.1.isSome) =
      (purchasesOf db sid).length * max (paymentsOf db sid).length 1 := by
    rw [crossRows_countP_fst, padded_countP_isSome, padded_length]
  have hamt : ((crossRows (padded (purchasesOf db sid)) (padded (paymentsOf db sid))).map
      (fun r => optInt (fun p => p.amount) r.1)).sum =
      (max (paymentsOf db sid).length 1 : Int) *
        ((purchasesOf db sid).map (fun p => p.amount)).sum := by
    rw [crossRows_map_fst_sum, padded_map_optInt, padded_length]
    simp [Nat.cast_max]
  have hpaid : ((crossRows (padded (purchasesOf db sid)) (padded (paymentsOf db sid))).map
      (fun r => optInt (fun p => p.paid_amount) r.1)).sum =
      (max (paymentsOf db sid).length 1 : Int) *
        ((purchasesOf db sid).map (fun p => p.paid_amount)).sum := by
    rw [crossRows_map_fst_sum, padded_map_optInt, padded_length]
    simp [Nat.cast_max]
  have hpay : ((crossRows (padded (purchasesOf db sid)) (padded (paymentsOf db sid))).map
      (fun r => optInt (fun q => q.amount) r.2)).sum =
      (max (purchasesOf db sid).length 1 : Int) *
        ((paymentsOf db sid).map (fun q => q.amount)).sum := by
    rw [crossRows_map_snd_sum, padded_map_optInt, padded_length]
    simp [Nat.cast_max]
  dsimp only
  rw [hcount, hamt, hpaid, hpay]

theorem c8_aggregates_multiplied_witness :
    dbC8.suppliers.find? (fun r => r.id == 1) = some ⟨1, "Sup", none, none, 30⟩ ∧
    Supplier.get_by_id dbC8 1 = some (⟨1, "Sup", none, none, 30⟩, 2, 200, 80, 40) := by
  refine ⟨by decide, ?_⟩
  have h := c8_aggregates_multiplied dbC8 1 ⟨1, "Sup", none, none, 30⟩ (by decide)
  rw [h]
  decide

theorem c9_counterexample :
    (Supplier.create "   " none none dbEmpty).1 = .ok 1 ∧
    ((Supplier.create "   " none none dbEmpty).2).suppliers.map (fun s => s.name) = [""] :=
  ⟨by decide, by decide⟩

/-- C9 (amended): Supplier.create stores the stripped input name whenever no
existing supplier already carries that stripped name; a whitespace-only name
is not rejected - it succeeds and stores the empty string, because neither
the source nor the NOT NULL column constraint checks non-emptiness.  The
call fails (Conflict, duplicate name) only when the stripped name collides
with a stored name. -/
theorem c9_create_stores_stripped (name : String) (contact address : Option String)
    (db : DB) (hfree : ∀ s ∈ db.suppliers, s.name ≠ pyStrip name) :
    (Supplier.create name contact address db).1 = .ok db.nextSupplierId ∧
    ((Supplier.create name contact address db).2).suppliers.map (fun s => s.name) =
      db.suppliers.map (fun s => s.name) ++ [pyStrip name] := by
  unfold Supplier.create
  have hcond : (db.suppliers.any (fun s => s.name == pyStrip name)) = false := by
    rw [Bool.eq_false_iff]
    intro h
    obtain ⟨s, hs, hname⟩ := List.any_eq_true.mp h
    exact hfree s hs (by simpa using hname)
  rw [hcond]
  simp only [Bool.false_eq_true, if_false, List.map_append, List.map_cons, List.map_nil]
  exact ⟨by trivial, by trivial⟩

theorem c9_create_stores_stripped_witness :
    (∀ s ∈ dbEmpty.suppliers, s.name ≠ pyStrip " Acme ") ∧
    (Supplier.create " Acme " none none dbEmpty).1 = .ok 1 ∧
    ((Supplier.create " Acme " none none dbEmpty).2).suppliers.map (fun s => s.name) =
      ["Acme"] := by
  refine ⟨by decide, ?_, ?_⟩
  · exact (c9_create_stores_stripped " Acme " none none dbEmpty (by decide)).1
  · rw [(c9_create_stores_stripped " Acme " none none dbEmpty (by decide)).2]
    decide

theorem c10_counterexample :
    Purchase.update 1 none none none none none none none dbEmpty =
      (.error .NotFound, dbEmpty) ∧
    (Except.error Err.NotFound : Except Err Bool) ≠ .ok false :=
  ⟨by decide, by decide⟩

/-- C10 (amended): an update call with every optional field omitted touches
no row.  Supplier.update returns False before any check, even for a
nonexistent id.  Purchase.update and Payment.update first fetch the row: if
it exists they return False with the state unchanged, but for a nonexistent
id they fail with NotFound (state still unchanged) instead of returning
False. -/
theorem c10_empty_update (i : Nat) (db : DB) :
    Supplier.update i none none none db = (.ok false, db) ∧
    (∀ cur, Purchase.get_by_id db i = some cur →
      Purchase.update i none none none none none none none db = (.ok false, db)) ∧
    (Purchase.get_by_id db i = none →
      Purchase.update i none none none none none none none db = (.error .NotFound, db)) ∧
    (∀ cur, Payment.get_by_id db i = some cur →
      Payment.update i none none none none none db = (.ok false, db)) ∧
    (Payment.get_by_id db i = none →
      Payment.update i none none none none none db = (.error .NotFound, db)) := by
  refine ⟨?_, ?_, ?_, ?_, ?_⟩
  · unfold Supplier.update
    rw [if_pos ⟨rfl, rfl, rfl⟩]
  · intro cur hget
    unfold Purchase.update
    simp only [hget]
    rw [if_neg (by simp), if_neg (by simp), if_neg (by simp), if_neg (by simp),
      if_pos ⟨rfl, rfl, rfl, rfl, rfl, rfl, rfl⟩]
  · intro hget
    unfold Purchase.update
    simp only [hget]
  · intro cur hget
    unfold Payment.update
    simp only [hget]
    rw [if_neg (by simp), if_neg (by simp)]
    unfold Payment.updateRest
    rw [if_neg (by simp), if_pos ⟨rfl, rfl, rfl, rfl, rfl⟩]
  · intro hget
    unfold Payment.update
    simp only [hget]

theorem c10_empty_update_witness :
    Supplier.update 7 none none none dbEmpty = (.ok false, dbEmpty) ∧
    Purchase.update 1 none none none none none none none dbOne = (.ok false, dbOne) ∧
    Purchase.update 1 none none none none none none none dbEmpty =
      (.error .NotFound, dbEmpty) ∧
    Payment.update 1 none none none none none dbOne = (.ok false, dbOne) ∧
    Payment.update 1 none none none none none dbEmpty = (.error .NotFound, dbEmpty) :=
  ⟨(c10_empty_update 7 dbEmpty).1,
   (c10_empty_update 1 dbOne).2.1 ⟨1, "2024-01-05", 1, none, 1000, 400, none, none⟩ (by decide),
   (c10_empty_update 1 dbEmpty).2.2.1 (by decide),
   (c10_empty_update 1 dbOne).2.2.2.1 ⟨1, "2024-01-06", 1, some 1, 400, "cash", none, none⟩
     (by decide),
   (c10_empty_update 1 dbEmpty).2.2.2.2 (by decide)⟩
